import Mathlib

/-!
Shallow embedding of the tempfile lifecycle module (src/tempfile.c).

A `struct tempfile` becomes a `Tempfile` record.  The C pointers are
modelled as follows: `fd` keeps its integer value (with `-1` as the
"closed" sentinel, exactly as in the C); the `FILE *fp` stream pointer
only ever matters through "is it NULL or not", so it becomes a `Bool`;
`filename` is a `strbuf`, modelled as a `String` ("" after
`strbuf_reset`/`strbuf_init`); `owner` is the pid; `on_list` and
`active` are the C flags.  The process-wide singly-linked
`tempfile_list` becomes a `List` in the module-level state `MState`.

Outcomes of the operating-system calls (`close`, `fclose`/`ferror`,
`unlink`, `rename`, `open`, `adjust_shared_perm`) are nondeterministic
inputs, supplied through oracle records (`OS`, `COS`); each failing call
sets `errno` to the oracle's value for it, and `errno` is threaded
explicitly through the functions, as the C error-preservation logic
(`save_errno = errno; ...; errno = save_errno`) manipulates it.
`die()` (a fatal contract violation that never returns) is modelled by
returning `none`.

Observable filesystem/stdio actions are recorded in an `Event` trace so
that statements like "fclose is never invoked on the signal path" or
"the rename is never attempted" are about the trace, not about the
returned state only.
-/

/-- One observable action of the module on the outside world. -/
inductive Event where
  | fcloseEv (path : String)
  | closeRawEv (fd : Int)
  | unlinkEv (path : String)
  | renameEv (src dst : String)
deriving DecidableEq, Repr

/-- The C `struct tempfile` (src/tempfile.h): descriptor, stream pointer
(as "non-NULL?"), active flag, owner pid, filename strbuf, on-list flag. -/
structure Tempfile where
  fd : Int
  fp : Bool
  active : Bool
  owner : Nat
  filename : String
  on_list : Bool
deriving DecidableEq, Repr

/-- Oracle for the outcomes of the OS calls made by the close / delete /
rename paths.  A `...Ok := false` entry makes that call fail and sets
`errno` to the corresponding `...Errno` value. -/
structure OS where
  fcloseOk : Bool
  fcloseErrno : Nat
  closeOk : Bool
  closeErrno : Nat
  unlinkOk : Bool
  unlinkErrno : Nat
  renameOk : Bool
  renameErrno : Nat
deriving DecidableEq, Repr

/-- `unlink_or_warn(path)`: attempts the unlink (recorded as an event);
a failure only warns, but, being a failed syscall, clobbers `errno`. -/
def unlink_or_warn (os : OS) (path : String) (e : Nat) : Nat × List Event :=
  (if os.unlinkOk then e else os.unlinkErrno, [Event.unlinkEv path])

/-- The body of `delete_tempfile` in the case where the descriptor is
already closed (`fd < 0`), so that its inner `close_tempfile` call
returns 0 at once.  `close_tempfile`'s error path re-enters
`delete_tempfile` exactly in this form (it has just set `fd := -1`),
which is how the C mutual recursion bottoms out; the lemma
`delete_closed_spec` below proves this function equal to
`delete_tempfile` on that domain. -/
def delete_closed (os : OS) (tf : Tempfile) (e : Nat) : Tempfile × Nat × List Event :=
  if tf.active then
    let u := unlink_or_warn os tf.filename e
    ({ tf with active := false, filename := "" }, u.1, u.2)
  else (tf, e, [])

/-- `close_tempfile(tempfile)` (src/tempfile.c:159-189): returns the new
entity state, the C return value (0 or -1), the resulting `errno`, and
the event trace.  If `fd < 0` it is a no-op returning 0.  Otherwise it
sets `fd := -1`; if a stream is present it clears `fp` and closes via
`ferror | fclose` (one combined oracle outcome), else it closes the raw
descriptor.  On a close error it deletes the entity (the entity is
already descriptor-closed, hence `delete_closed`), restores the saved
`errno` and returns -1. -/
def close_tempfile (os : OS) (tf : Tempfile) (e : Nat) :
    Tempfile × Int × Nat × List Event :=
  if tf.fd < 0 then (tf, 0, e, [])
  else if tf.fp then
    if os.fcloseOk then
      ({ tf with fd := -1, fp := false }, 0, e, [Event.fcloseEv tf.filename])
    else
      let d := delete_closed os { tf with fd := -1, fp := false } os.fcloseErrno
      (d.1, -1, os.fcloseErrno, Event.fcloseEv tf.filename :: d.2.2)
  else
    if os.closeOk then
      ({ tf with fd := -1 }, 0, e, [Event.closeRawEv tf.fd])
    else
      let d := delete_closed os { tf with fd := -1 } os.closeErrno
      (d.1, -1, os.closeErrno, Event.closeRawEv tf.fd :: d.2.2)

/-- `delete_tempfile(tempfile)` (src/tempfile.c:221-231): no-op when the
entity is inactive; otherwise closes it and, if the close reported
success, attempts the unlink (warn-only) and marks the entity inactive
with its filename reset.  When the close failed, `close_tempfile` has
already performed the deletion internally. -/
def delete_tempfile (os : OS) (tf : Tempfile) (e : Nat) : Tempfile × Nat × List Event :=
  if tf.active then
    let c := close_tempfile os tf e
    if c.2.1 = 0 then
      let u := unlink_or_warn os c.1.filename c.2.2.1
      ({ c.1 with active := false, filename := "" }, u.1, c.2.2.2 ++ u.2)
    else (c.1, c.2.2.1, c.2.2.2)
  else (tf, e, [])

/-- `register_tempfile_object(tempfile, path)` (src/tempfile.c:34-60),
the per-entity part (the one-time hook installation and the linking into
`tempfile_list` depend on the process-wide list and are modelled at the
module level, in `mstep`).  `die("BUG: ...")` is modelled by `none`:
fatal when the entity is already active, or when it is on the list but
still carries a non-empty filename while inactive.  A fresh (never
listed) entity has its fields initialized and is marked as listed. -/
def register_tempfile_object (tf : Tempfile) : Option Tempfile :=
  if tf.active then none
  else if !tf.on_list then
    some { fd := -1, fp := false, active := false, owner := 0, filename := "", on_list := true }
  else if tf.filename ≠ "" then none
  else some tf

/-- Modelled from the spec: the path-resolution helper
(`strbuf_add_absolute_path`, an external collaborator of this core, spec
section 6: "compute the absolute, symlink-resolved form of a path").  An
already-absolute path is kept; a relative one is prefixed with the
current working directory `cwd` and a slash. -/
def isAbs (s : String) : Bool := s.data.head? = some '/'

/-- Modelled from the spec: see `isAbs`. -/
def absPath (cwd p : String) : String :=
  if isAbs p then p else cwd ++ "/" ++ p

/-- Oracle for the outcomes of the OS calls made by the creation paths:
`open`/`git_mkstemps_mode` result (`some fd` or failure with
`openErrno`), the `adjust_shared_perm` outcome, and the `errno` value
that the diagnostic-printing `error(...)` routine may leave behind. -/
structure COS where
  openFd : Option Nat
  openErrno : Nat
  adjustOk : Bool
  adjustErrno : Nat
  errorErrno : Nat
deriving DecidableEq, Repr

/-- `create_tempfile(tempfile, path)` (src/tempfile.c:63-83): registers
the entity, resolves the path, opens with `O_RDWR|O_CREAT|O_EXCL`.  On
open failure the filename is reset and -1 returned with the open error.
On success the entity is activated for pid `pid`; if the subsequent
permission normalization fails, `errno` is saved, `error(...)` is
printed (possibly clobbering `errno`), the entity is deleted, and the
saved `errno` is restored for the caller. -/
def create_tempfile (cos : COS) (os : OS) (cwd path : String) (pid : Nat)
    (tf : Tempfile) (e : Nat) : Option (Tempfile × Int × Nat × List Event) :=
  (register_tempfile_object tf).map fun tf0 =>
    let tf1 := { tf0 with filename := absPath cwd path }
    match cos.openFd with
    | none => ({ tf1 with fd := -1, filename := "" }, -1, cos.openErrno, [])
    | some n =>
      let tf2 := { tf1 with fd := (n : Int), owner := pid, active := true }
      if cos.adjustOk then (tf2, (n : Int), e, [])
      else
        let d := delete_tempfile os tf2 cos.errorErrno
        (d.1, -1, cos.adjustErrno, d.2.2)

/-- `register_tempfile(tempfile, path)` (src/tempfile.c:85-92): registers
the entity, records the resolved path, and activates it for pid `pid`
without opening anything (the descriptor stays -1). -/
def register_tempfile (cwd path : String) (pid : Nat) (tf : Tempfile) :
    Option Tempfile :=
  (register_tempfile_object tf).map fun tf0 =>
    { tf0 with filename := absPath cwd path, owner := pid, active := true }

/-- Modelled from the spec: `git_mkstemps_mode`'s name substitution — the
helper "creates a uniquely-named file by substituting a random component
into `template`" (spec 4.2); the substituted component replaces the
6-character placeholder sitting just before the `sl`-character suffix of
the buffer.  The random letters come from the oracle string `rand`
(padded/truncated to the placeholder's 6 characters). -/
def substTemplate (buf rand : String) (sl : Nat) : String :=
  ⟨buf.data.take (buf.data.length - (6 + sl)) ++
    (rand.data ++ List.replicate 6 'X').take 6 ++
    buf.data.drop (buf.data.length - sl)⟩

/-- Modelled from the spec: `git_mkstemps_mode(buf, sl, mode)` — not part
of src/, called by the template-creation operations.  Fails (also) when
the buffer is too short to hold the placeholder and suffix; on success
returns the descriptor from the oracle and the substituted name. -/
def git_mkstemps_mode (rand buf : String) (sl : Nat) (openFd : Option Nat) :
    Option (Nat × String) :=
  if 6 + sl ≤ buf.data.length then
    openFd.map fun n => (n, substTemplate buf rand sl)
  else none

/-- `mks_tempfile_sm(tempfile, template, suffixlen, mode)`
(src/tempfile.c:94-108): registers the entity, resolves the template to
an absolute path, runs the mkstemp helper on it; on failure resets the
filename and returns -1, on success records the substituted name and
activates the entity. -/
def mks_tempfile_sm (cos : COS) (cwd template : String) (sl : Nat) (rand : String)
    (pid : Nat) (tf : Tempfile) (e : Nat) : Option (Tempfile × Int × Nat) :=
  (register_tempfile_object tf).map fun tf0 =>
    let buf := absPath cwd template
    match git_mkstemps_mode rand buf sl cos.openFd with
    | none => ({ tf0 with fd := -1, filename := "" }, -1, cos.openErrno)
    | some r => ({ tf0 with fd := (r.1 : Int), filename := r.2, owner := pid, active := true },
                 (r.1 : Int), e)

/-- `mks_tempfile_tsm(tempfile, template, suffixlen, mode)`
(src/tempfile.c:110-130): like `mks_tempfile_sm`, but the buffer is
built as `"%s/%s"` of the `TMPDIR` environment value (default "/tmp"
when unset) and the template — verbatim, with no path resolution. -/
def mks_tempfile_tsm (cos : COS) (env : Option String) (template : String) (sl : Nat)
    (rand : String) (pid : Nat) (tf : Tempfile) (e : Nat) :
    Option (Tempfile × Int × Nat) :=
  (register_tempfile_object tf).map fun tf0 =>
    let buf := (env.getD "/tmp") ++ "/" ++ template
    match git_mkstemps_mode rand buf sl cos.openFd with
    | none => ({ tf0 with fd := -1, filename := "" }, -1, cos.openErrno)
    | some r => ({ tf0 with fd := (r.1 : Int), filename := r.2, owner := pid, active := true },
                 (r.1 : Int), e)

/-- `fdopen_tempfile(tempfile, mode)` (src/tempfile.c:147-157): fatal if
the entity is inactive or already has a stream; otherwise wraps the
descriptor (a C `fdopen` on a closed descriptor fails and leaves `fp`
NULL, hence the `0 ≤ tf.fd` conjunct next to the oracle `ok`). -/
def fdopen_tempfile (ok : Bool) (tf : Tempfile) : Option Tempfile :=
  if !tf.active then none
  else if tf.fp then none
  else some { tf with fp := ok && decide (0 ≤ tf.fd) }

/-- `reopen_tempfile(tempfile)` (src/tempfile.c:191-199): fatal if the
descriptor is still open or the entity is inactive; otherwise re-opens
the recorded filename for writing. -/
def reopen_tempfile (openFd : Option Nat) (openErrno : Nat) (tf : Tempfile) (e : Nat) :
    Option (Tempfile × Int × Nat) :=
  if 0 ≤ tf.fd then none
  else if !tf.active then none
  else match openFd with
    | some n => some ({ tf with fd := (n : Int) }, (n : Int), e)
    | none => some ({ tf with fd := -1 }, -1, openErrno)

/-- `rename_tempfile(tempfile, path)` (src/tempfile.c:201-219): fatal on
an inactive entity.  Closes the entity; on close failure returns -1 at
once (the close has already deleted the entity and preserved its error).
Otherwise attempts the rename (recorded as an event whatever its
outcome); on rename failure the `errno` from the rename is saved, the
entity deleted, and the saved `errno` restored; on success the entity is
deactivated and its filename reset. -/
def rename_tempfile (os : OS) (dest : String) (tf : Tempfile) (e : Nat) :
    Option (Tempfile × Int × Nat × List Event) :=
  if !tf.active then none
  else
    let c := close_tempfile os tf e
    if c.2.1 ≠ 0 then some (c.1, -1, c.2.2.1, c.2.2.2)
    else
      let evs := c.2.2.2 ++ [Event.renameEv c.1.filename dest]
      if os.renameOk then
        some ({ c.1 with active := false, filename := "" }, 0, c.2.2.1, evs)
      else
        let d := delete_tempfile os c.1 os.renameErrno
        some (d.1, -1, os.renameErrno, evs ++ d.2.2)

/-- A creation-family call (each starts with `register_tempfile_object`):
`create_tempfile`, `register_tempfile`, `mks_tempfile_sm`,
`mks_tempfile_tsm`, with their oracles and arguments. -/
inductive COp where
  | createC (cos : COS) (os : OS) (cwd path : String) (pid : Nat)
  | regExternalC (cwd path : String) (pid : Nat)
  | mksSmC (cos : COS) (cwd template : String) (sl : Nat) (rand : String) (pid : Nat)
  | mksTsmC (cos : COS) (env : Option String) (template : String) (sl : Nat)
      (rand : String) (pid : Nat)
deriving DecidableEq, Repr

/-- A non-creating operation on an already-registered entity. -/
inductive EOp where
  | closeE (os : OS)
  | deleteE (os : OS)
  | renameE (os : OS) (dest : String)
  | reopenE (f : Option Nat) (er : Nat)
  | fdopenE (ok : Bool)
deriving DecidableEq, Repr

/-- Run one creation-family call on an entity: new entity state, `errno`,
events (`none` = the call `die`d). -/
def cstep (c : COp) (tf : Tempfile) (e : Nat) : Option (Tempfile × Nat × List Event) :=
  match c with
  | .createC cos os cwd path pid =>
    (create_tempfile cos os cwd path pid tf e).map fun r => (r.1, r.2.2.1, r.2.2.2)
  | .regExternalC cwd path pid =>
    (register_tempfile cwd path pid tf).map fun tf1 => (tf1, e, [])
  | .mksSmC cos cwd template sl rand pid =>
    (mks_tempfile_sm cos cwd template sl rand pid tf e).map fun r => (r.1, r.2.2, [])
  | .mksTsmC cos env template sl rand pid =>
    (mks_tempfile_tsm cos env template sl rand pid tf e).map fun r => (r.1, r.2.2, [])

/-- Run one non-creating operation on an entity. -/
def estep (op : EOp) (tf : Tempfile) (e : Nat) : Option (Tempfile × Nat × List Event) :=
  match op with
  | .closeE os =>
    let c := close_tempfile os tf e
    some (c.1, c.2.2.1, c.2.2.2)
  | .deleteE os =>
    let d := delete_tempfile os tf e
    some (d.1, d.2.1, d.2.2)
  | .renameE os dest =>
    (rename_tempfile os dest tf e).map fun r => (r.1, r.2.2.1, r.2.2.2)
  | .reopenE f er =>
    (reopen_tempfile f er tf e).map fun r => (r.1, r.2.2, [])
  | .fdopenE ok =>
    (fdopen_tempfile ok tf).map fun tf1 => (tf1, e, [])

/-- Any operation of the module, acting on a single entity. -/
inductive Op where
  | c (op : COp)
  | e (op : EOp)
deriving DecidableEq, Repr

/-- One step of the single-entity semantics. -/
def step (op : Op) (tf : Tempfile) (e : Nat) : Option (Tempfile × Nat × List Event) :=
  match op with
  | .c op => cstep op tf e
  | .e op => estep op tf e

/-- Run a sequence of operations on one entity, threading `errno`. -/
def run : List Op → Tempfile → Nat → Option (Tempfile × Nat)
  | [], tf, e => some (tf, e)
  | op :: ops, tf, e =>
    match step op tf e with
    | none => none
    | some r => run ops r.1 r.2.1

/-- The caller-allocated, zero-initialized `struct tempfile` (the C API
requires the struct to be zeroed before first use). -/
def freshTempfile : Tempfile :=
  { fd := 0, fp := false, active := false, owner := 0, filename := "", on_list := false }

/-- The process-wide module state: the `tempfile_list` registry (set of
registered entities, newest first, exactly the C's prepend-to-head
list) and the number of times the one-time initialization (the
`sigchain_push_common` + `atexit` pair) has run. -/
structure MState where
  list : List Tempfile
  installs : Nat
deriving DecidableEq, Repr

/-- A module-level operation: a creation-family call on a fresh zeroed
entity (`mnew`, which `register_tempfile_object` links into the list), a
creation-family call reusing the already-listed entity at index `i`
(`mreuse`, which does not relink), or a non-creating call on the entity
at index `i` (`ment`). -/
inductive MOp where
  | mnew (c : COp)
  | mreuse (i : Nat) (c : COp)
  | ment (i : Nat) (e : EOp)
deriving DecidableEq, Repr

/-- One module-level step.  The hook-installation check is the C's
`if (!tempfile_list)` at the entry of `register_tempfile_object`, taken
before anything is linked.  An index that names no listed entity has no
C counterpart (a reused entity is always on the list) and is mapped to
`none`, like a `die`. -/
def mstep (op : MOp) (m : MState) : Option MState :=
  match op with
  | .mnew c =>
    let inst := if m.list.isEmpty then m.installs + 1 else m.installs
    (cstep c freshTempfile 0).map fun r => { list := r.1 :: m.list, installs := inst }
  | .mreuse i c =>
    match m.list[i]? with
    | none => none
    | some tf =>
      let inst := if m.list.isEmpty then m.installs + 1 else m.installs
      (cstep c tf 0).map fun r => { list := m.list.set i r.1, installs := inst }
  | .ment i op =>
    match m.list[i]? with
    | none => none
    | some tf =>
      (estep op tf 0).map fun r => { list := m.list.set i r.1, installs := m.installs }

/-- Run a sequence of module-level operations. -/
def mrun : List MOp → MState → Option MState
  | [], m => some m
  | op :: ops, m =>
    match mstep op m with
    | none => none
    | some m1 => mrun ops m1

/-- The initial module state: empty registry, hooks never installed. -/
def mInit : MState := { list := [], installs := 0 }

/-- Result of the cleanup pass: the final value of the `tempfile_list`
global, the final state of each visited node, the entity states on which
`delete_tempfile` was invoked, and the event trace. -/
structure RemoveOut where
  registry : List (OS × Tempfile)
  finals : List Tempfile
  calls : List Tempfile
  events : List Event
deriving DecidableEq, Repr

/-- `remove_tempfiles(skip_fclose)` (src/tempfile.c:7-20): walks the
registry; for each node owned by pid `me` it first (when `skip_fclose`)
discards the stream handle and then calls `delete_tempfile`; every
iteration advances `tempfile_list` to the next node, so the global ends
as the empty list.  Each node carries its own OS oracle. -/
def remove_tempfiles (skip_fclose : Bool) (me : Nat) :
    List (OS × Tempfile) → RemoveOut
  | [] => { registry := [], finals := [], calls := [], events := [] }
  | (os, tf) :: rest =>
    let r := remove_tempfiles skip_fclose me rest
    if tf.owner = me then
      let tf1 := if skip_fclose then { tf with fp := false } else tf
      let d := delete_tempfile os tf1 0
      { registry := r.registry, finals := d.1 :: r.finals,
        calls := tf1 :: r.calls, events := d.2.2 ++ r.events }
    else
      { registry := r.registry, finals := tf :: r.finals,
        calls := r.calls, events := r.events }


/-- The invariant that actually holds at the end of every operation: a
valid descriptor implies the entity is active, and the recorded path is
non-empty exactly when the entity is active. -/
def tfInv (tf : Tempfile) : Prop :=
  (0 ≤ tf.fd → tf.active = true) ∧ (tf.filename ≠ "" ↔ tf.active = true)

instance (tf : Tempfile) : Decidable (tfInv tf) := by
  unfold tfInv
  infer_instance

/-- The hook-installation invariant: the one-time initialization has run
exactly when the registry is non-empty, and then exactly once. -/
def hooksInv (m : MState) : Prop :=
  m.installs = if m.list.isEmpty then 0 else 1

def osOkC : OS :=
  { fcloseOk := true, fcloseErrno := 21, closeOk := true, closeErrno := 22,
    unlinkOk := true, unlinkErrno := 23, renameOk := true, renameErrno := 24 }

def tfActiveA : Tempfile :=
  { fd := 5, fp := false, active := true, owner := 1, filename := "/t/a", on_list := true }

def tfActiveB : Tempfile :=
  { fd := 6, fp := false, active := true, owner := 2, filename := "/t/b", on_list := true }

def tfStreamC : Tempfile :=
  { fd := 7, fp := true, active := true, owner := 1, filename := "/t/c", on_list := true }

def regList : List (OS × Tempfile) := [(osOkC, tfActiveA), (osOkC, tfActiveB)]

/-- The invariant as the spec words it, with an explicit flag recording
whether a commit (rename) or rollback (delete) has occurred: "the
descriptor is valid if and only if `active` is true and no
commit/rollback has occurred; `path` is non-empty if and only if
`active` is true". -/
def specDescriptorInv (tf : Tempfile) (committedOrRolledBack : Bool) : Prop :=
  ((0 ≤ tf.fd) ↔ (tf.active = true ∧ committedOrRolledBack = false)) ∧
  (tf.filename ≠ "" ↔ tf.active = true)

instance (tf : Tempfile) (b : Bool) : Decidable (specDescriptorInv tf b) := by
  unfold specDescriptorInv
  infer_instance

/-- Recognizes the commit (rename) and rollback (delete) operations. -/
def isCommitOrRollback : Op → Bool
  | Op.e (EOp.renameE _ _) => true
  | Op.e (EOp.deleteE _) => true
  | _ => false

def opsCreateClose : List Op :=
  [Op.c (COp.createC { openFd := some 5, openErrno := 2, adjustOk := true,
                       adjustErrno := 13, errorErrno := 3 } osOkC "/cwd" "x" 1),
   Op.e (EOp.closeE osOkC)]

def tfAfterClose : Tempfile :=
  { fd := -1, fp := false, active := true, owner := 1, filename := "/cwd/x", on_list := true }

def tfReset : Tempfile :=
  { fd := -1, fp := false, active := false, owner := 0, filename := "", on_list := true }

def osRenameFail : OS :=
  { fcloseOk := true, fcloseErrno := 21, closeOk := true, closeErrno := 22,
    unlinkOk := true, unlinkErrno := 23, renameOk := false, renameErrno := 17 }

def rOutC4 : Tempfile × Int × Nat × List Event :=
  ({ fd := -1, fp := false, active := false, owner := 1, filename := "", on_list := true },
   -1, 17, [Event.closeRawEv 5, Event.renameEv "/t/a" "/dst", Event.unlinkEv "/t/a"])

def osCloseFail : OS :=
  { fcloseOk := true, fcloseErrno := 21, closeOk := false, closeErrno := 9,
    unlinkOk := true, unlinkErrno := 23, renameOk := true, renameErrno := 24 }

def rOutC9 : Tempfile × Int × Nat × List Event :=
  ({ fd := -1, fp := false, active := false, owner := 1, filename := "", on_list := true },
   -1, 9, [Event.closeRawEv 5, Event.unlinkEv "/t/a"])

def cosPermFail : COS :=
  { openFd := some 5, openErrno := 2, adjustOk := false, adjustErrno := 13, errorErrno := 3 }

def rOutC6 : Tempfile × Int × Nat × List Event :=
  ({ fd := -1, fp := false, active := false, owner := 1, filename := "", on_list := true },
   -1, 13, [Event.closeRawEv 5, Event.unlinkEv "/cwd/x"])

def opsC8 : List MOp :=
  [MOp.mnew (COp.regExternalC "/c" "p" 1), MOp.mnew (COp.regExternalC "/c" "q" 1)]

def mFinalC8 : MState :=
  { list := [{ fd := -1, fp := false, active := true, owner := 1,
               filename := "/c/q", on_list := true },
             { fd := -1, fp := false, active := true, owner := 1,
               filename := "/c/p", on_list := true }],
    installs := 1 }

def cosOpenOk : COS :=
  { openFd := some 5, openErrno := 2, adjustOk := true, adjustErrno := 13, errorErrno := 3 }

/-- On a closed descriptor, `delete_closed` agrees with `delete_tempfile`:
this is the justification for using `delete_closed` inside
`close_tempfile`'s error path. -/
theorem delete_closed_spec (os : OS) (tf : Tempfile) (e : Nat) (h : tf.fd < 0) :
    delete_closed os tf e = delete_tempfile os tf e := by
  unfold delete_closed delete_tempfile close_tempfile
  simp [if_pos h]

theorem delete_closed_spec_witness :
    Tempfile.fd { fd := -1, fp := false, active := true, owner := 1,
                  filename := "/t/a", on_list := true } < 0 ∧
    delete_closed { fcloseOk := true, fcloseErrno := 0, closeOk := true, closeErrno := 0,
                    unlinkOk := true, unlinkErrno := 0, renameOk := true, renameErrno := 0 }
        { fd := -1, fp := false, active := true, owner := 1,
          filename := "/t/a", on_list := true } 0 =
      delete_tempfile { fcloseOk := true, fcloseErrno := 0, closeOk := true, closeErrno := 0,
                        unlinkOk := true, unlinkErrno := 0, renameOk := true, renameErrno := 0 }
        { fd := -1, fp := false, active := true, owner := 1,
          filename := "/t/a", on_list := true } 0 :=
  ⟨by decide,
   delete_closed_spec _ _ _ (by decide)⟩

theorem delete_not_active (os : OS) (tf : Tempfile) (e : Nat) (h : tf.active = false) :
    delete_tempfile os tf e = (tf, e, []) := by
  unfold delete_tempfile
  simp [h]

theorem delete_result_inactive (os : OS) (tf : Tempfile) (e : Nat) :
    (delete_tempfile os tf e).1.active = false := by
  rcases tf with ⟨fd, fp, active, owner, filename, onl⟩
  cases active
  · simp [delete_tempfile]
  · unfold delete_tempfile close_tempfile delete_closed unlink_or_warn
    repeat' split
    all_goals simp_all

theorem delete_active_unlinks (os : OS) (tf : Tempfile) (e : Nat) (h : tf.active = true) :
    (delete_tempfile os tf e).1.filename = "" ∧
    Event.unlinkEv tf.filename ∈ (delete_tempfile os tf e).2.2 := by
  rcases tf with ⟨fd, fp, active, owner, filename, onl⟩
  simp only at h
  subst h
  unfold delete_tempfile close_tempfile delete_closed unlink_or_warn
  repeat' split
  all_goals simp_all

theorem delete_unlink_mem (os : OS) (tf : Tempfile) (e : Nat) (p : String)
    (h : Event.unlinkEv p ∈ (delete_tempfile os tf e).2.2) : p = tf.filename := by
  rcases tf with ⟨fd, fp, active, owner, filename, onl⟩
  unfold delete_tempfile close_tempfile delete_closed unlink_or_warn at h
  repeat' split at h
  all_goals simp_all

theorem delete_no_fclose (os : OS) (tf : Tempfile) (e : Nat) (p : String)
    (h : tf.fp = false) : Event.fcloseEv p ∉ (delete_tempfile os tf e).2.2 := by
  rcases tf with ⟨fd, fp, active, owner, filename, onl⟩
  simp only at h
  subst h
  unfold delete_tempfile close_tempfile delete_closed unlink_or_warn
  repeat' split
  all_goals simp_all

theorem remove_registry_empty (skip : Bool) (me : Nat) (l : List (OS × Tempfile)) :
    (remove_tempfiles skip me l).registry = [] := by
  induction l with
  | nil => rfl
  | cons hd tl ih =>
    rcases hd with ⟨os, tf⟩
    by_cases howner : tf.owner = me <;> simp [remove_tempfiles, howner, ih]

theorem remove_calls_eq (skip : Bool) (me : Nat) (l : List (OS × Tempfile)) :
    (remove_tempfiles skip me l).calls =
      (l.filter fun q => q.2.owner = me).map
        (fun q => if skip then { q.2 with fp := false } else q.2) := by
  induction l with
  | nil => rfl
  | cons hd tl ih =>
    rcases hd with ⟨os, tf⟩
    by_cases howner : tf.owner = me <;>
      simp [remove_tempfiles, List.filter_cons, howner, ih]

theorem remove_finals_other (skip : Bool) (me : Nat) (l : List (OS × Tempfile))
    (os : OS) (tf : Tempfile) (hmem : (os, tf) ∈ l) (howner : tf.owner ≠ me) :
    tf ∈ (remove_tempfiles skip me l).finals := by
  induction l with
  | nil => cases hmem
  | cons hd tl ih =>
    rcases hd with ⟨os1, tf1⟩
    rcases List.mem_cons.mp hmem with heq | htl
    · have h1 : os1 = os ∧ tf1 = tf := by
        have := heq
        simp at this
        exact ⟨this.1.symm, this.2.symm⟩
      rcases h1 with ⟨rfl, rfl⟩
      simp [remove_tempfiles, howner]
    · by_cases h2 : tf1.owner = me <;> simp [remove_tempfiles, h2, ih htl]

theorem remove_unlink_owned (skip : Bool) (me : Nat) (l : List (OS × Tempfile))
    (p : String) (h : Event.unlinkEv p ∈ (remove_tempfiles skip me l).events) :
    ∃ q, q ∈ l ∧ q.2.owner = me ∧ q.2.filename = p := by
  induction l with
  | nil => cases h
  | cons hd tl ih =>
    rcases hd with ⟨os, tf⟩
    by_cases howner : tf.owner = me
    · simp only [remove_tempfiles, howner, if_pos] at h
      rcases List.mem_append.mp h with hdel | hrest
      · refine ⟨(os, tf), List.mem_cons_self _ _, howner, ?_⟩
        have := delete_unlink_mem _ _ _ _ hdel
        by_cases hs : skip = true <;> simp [hs] at this <;> simp [this]
      · rcases ih hrest with ⟨q, hq, h1, h2⟩
        exact ⟨q, List.mem_cons_of_mem _ hq, h1, h2⟩
    · simp only [remove_tempfiles, howner, if_neg, if_false] at h
      rcases ih h with ⟨q, hq, h1, h2⟩
      exact ⟨q, List.mem_cons_of_mem _ hq, h1, h2⟩

theorem remove_no_fclose (me : Nat) (l : List (OS × Tempfile)) (p : String) :
    Event.fcloseEv p ∉ (remove_tempfiles true me l).events := by
  induction l with
  | nil => simp [remove_tempfiles]
  | cons hd tl ih =>
    rcases hd with ⟨os, tf⟩
    by_cases howner : tf.owner = me
    · simp only [remove_tempfiles, howner, if_pos, if_true]
      intro hmem
      rcases List.mem_append.mp hmem with hdel | hrest
      · exact delete_no_fclose _ _ _ _ rfl hdel
      · exact ih hrest
    · simp only [remove_tempfiles, howner, if_neg, if_false]
      exact ih

theorem close_ret0 (os : OS) (tf : Tempfile) (e : Nat)
    (h : (close_tempfile os tf e).2.1 = 0) :
    (close_tempfile os tf e).1.filename = tf.filename ∧
    (close_tempfile os tf e).1.active = tf.active ∧
    (close_tempfile os tf e).1.fd < 0 ∧
    (close_tempfile os tf e).2.2.1 = e := by
  rcases tf with ⟨fd, fp, active, owner, filename, onl⟩
  unfold close_tempfile delete_closed unlink_or_warn at *
  repeat' (first | split at h | split)
  all_goals simp_all

theorem close_fail (os : OS) (tf : Tempfile) (e : Nat)
    (hact : tf.active = true) (h : (close_tempfile os tf e).2.1 ≠ 0) :
    (close_tempfile os tf e).1.active = false ∧
    (close_tempfile os tf e).1.filename = "" ∧
    (close_tempfile os tf e).1.fd < 0 ∧
    (close_tempfile os tf e).2.2.1 = (if tf.fp then os.fcloseErrno else os.closeErrno) ∧
    Event.unlinkEv tf.filename ∈ (close_tempfile os tf e).2.2.2 := by
  rcases tf with ⟨fd, fp, active, owner, filename, onl⟩
  simp only at hact
  subst hact
  unfold close_tempfile delete_closed unlink_or_warn at *
  repeat' (first | split at h | split)
  all_goals simp_all

theorem close_no_rename (os : OS) (tf : Tempfile) (e : Nat) (s d : String) :
    Event.renameEv s d ∉ (close_tempfile os tf e).2.2.2 := by
  rcases tf with ⟨fd, fp, active, owner, filename, onl⟩
  unfold close_tempfile delete_closed unlink_or_warn
  repeat' split
  all_goals simp_all

theorem delete_fd_neg (os : OS) (tf : Tempfile) (e : Nat)
    (h : tf.fd < 0 ∨ tf.active = true) :
    (delete_tempfile os tf e).1.fd < 0 := by
  rcases tf with ⟨fd, fp, active, owner, filename, onl⟩
  unfold delete_tempfile close_tempfile delete_closed unlink_or_warn
  repeat' split
  all_goals simp_all

theorem absPath_ne (cwd p : String) : absPath cwd p ≠ "" := by
  unfold absPath isAbs
  split
  · intro h
    subst h
    simp_all
  · intro h
    have h2 : (cwd ++ "/" ++ p).data = ("" : String).data := congrArg String.data h
    simp [String.data_append] at h2

theorem delete_inv (os : OS) (tf : Tempfile) (e : Nat) (h : tfInv tf) :
    tfInv (delete_tempfile os tf e).1 := by
  by_cases hact : tf.active = true
  · refine ⟨?_, ?_⟩
    · intro hfd
      exact absurd (delete_fd_neg os tf e (Or.inr hact)) (by omega)
    · rw [(delete_active_unlinks os tf e hact).1, delete_result_inactive]
      simp
  · rw [delete_not_active os tf e (by simp_all)]
    exact h

theorem close_inv (os : OS) (tf : Tempfile) (e : Nat) (h : tfInv tf) :
    tfInv (close_tempfile os tf e).1 := by
  by_cases hret : (close_tempfile os tf e).2.1 = 0
  · rcases close_ret0 os tf e hret with ⟨h1, h2, h3, h4⟩
    refine ⟨fun hfd => absurd h3 (by omega), ?_⟩
    rw [h1, h2]
    exact h.2
  · by_cases hact : tf.active = true
    · rcases close_fail os tf e hact hret with ⟨h1, h2, h3, h4, h5⟩
      refine ⟨fun hfd => absurd h3 (by omega), ?_⟩
      rw [h1, h2]
      simp
    · -- an inactive entity with a closed descriptor: close returns 0,
      -- contradicting hret; with an open one, tfInv forces active.
      rcases h with ⟨hh1, hh2⟩
      by_cases hfd : tf.fd < 0
      · unfold close_tempfile at hret
        simp [hfd] at hret
      · exact absurd (hh1 (by omega)) hact

theorem substTemplate_ne (buf rand : String) (sl : Nat) :
    substTemplate buf rand sl ≠ "" := by
  unfold substTemplate
  intro h
  have h3 := congrArg String.data h
  have h4 := congrArg List.length h3
  simp [List.length_append, List.length_take, List.length_replicate] at h4

theorem register_some (tf tf0 : Tempfile)
    (hr : register_tempfile_object tf = some tf0)
    (h : tfInv tf ∨ tf.on_list = false) :
    tf0.active = false ∧ tf0.filename = "" ∧ tf0.fd < 0 := by
  unfold register_tempfile_object at hr
  split at hr
  · cases hr
  · split at hr
    · cases hr
      exact ⟨rfl, rfl, by decide⟩
    · split at hr
      · cases hr
      · cases hr
        rename_i hact honl hfn
        refine ⟨by simp_all, by simp_all, ?_⟩
        rcases h with h | h
        · by_contra hfd
          have h2 := h.1 (by omega)
          simp_all
        · simp_all

theorem create_inv (cos : COS) (os : OS) (cwd path : String) (pid : Nat)
    (tf : Tempfile) (e : Nat) (r : Tempfile × Int × Nat × List Event)
    (h : tfInv tf ∨ tf.on_list = false)
    (hr : create_tempfile cos os cwd path pid tf e = some r) : tfInv r.1 := by
  unfold create_tempfile at hr
  rcases hreg : register_tempfile_object tf with _ | tf0
  · rw [hreg] at hr
    cases hr
  · rw [hreg] at hr
    simp only [Option.map_some'] at hr
    rcases register_some tf tf0 hreg h with ⟨h1, h2, h3⟩
    rcases hfd : cos.openFd with _ | n
    · rw [hfd] at hr
      simp only [] at hr
      cases hr
      exact ⟨by simp [h1], by simp [h1]⟩
    · rw [hfd] at hr
      simp only [] at hr
      split at hr
      · cases hr
        exact ⟨fun _ => rfl, by simp [absPath_ne]⟩
      · cases hr
        exact delete_inv _ _ _ ⟨fun _ => rfl, by simp [absPath_ne]⟩

theorem register_tempfile_inv (cwd path : String) (pid : Nat) (tf tf1 : Tempfile)
    (h : tfInv tf ∨ tf.on_list = false)
    (hr : register_tempfile cwd path pid tf = some tf1) : tfInv tf1 := by
  unfold register_tempfile at hr
  rcases hreg : register_tempfile_object tf with _ | tf0
  · rw [hreg] at hr
    cases hr
  · rw [hreg] at hr
    simp only [Option.map_some'] at hr
    cases hr
    exact ⟨fun _ => rfl, ⟨fun _ => rfl, fun _ => absPath_ne cwd path⟩⟩

theorem mks_sm_inv (cos : COS) (cwd template : String) (sl : Nat) (rand : String)
    (pid : Nat) (tf : Tempfile) (e : Nat) (r : Tempfile × Int × Nat)
    (h : tfInv tf ∨ tf.on_list = false)
    (hr : mks_tempfile_sm cos cwd template sl rand pid tf e = some r) : tfInv r.1 := by
  unfold mks_tempfile_sm at hr
  rcases hreg : register_tempfile_object tf with _ | tf0
  · rw [hreg] at hr
    cases hr
  · rw [hreg] at hr
    simp only [Option.map_some'] at hr
    rcases register_some tf tf0 hreg h with ⟨h1, h2, h3⟩
    rcases hmk : git_mkstemps_mode rand (absPath cwd template) sl cos.openFd with _ | q
    · rw [hmk] at hr
      simp only [] at hr
      cases hr
      exact ⟨by simp [h1], by simp [h1]⟩
    · rw [hmk] at hr
      simp only [] at hr
      cases hr
      refine ⟨fun _ => rfl, ⟨fun _ => rfl, fun _ => ?_⟩⟩
      unfold git_mkstemps_mode at hmk
      split at hmk
      · rcases hfd : cos.openFd with _ | n
        · rw [hfd] at hmk
          cases hmk
        · rw [hfd] at hmk
          simp only [Option.map_some'] at hmk
          cases hmk
          exact substTemplate_ne _ _ _
      · cases hmk

theorem mks_tsm_inv (cos : COS) (env : Option String) (template : String) (sl : Nat)
    (rand : String) (pid : Nat) (tf : Tempfile) (e : Nat) (r : Tempfile × Int × Nat)
    (h : tfInv tf ∨ tf.on_list = false)
    (hr : mks_tempfile_tsm cos env template sl rand pid tf e = some r) : tfInv r.1 := by
  unfold mks_tempfile_tsm at hr
  rcases hreg : register_tempfile_object tf with _ | tf0
  · rw [hreg] at hr
    cases hr
  · rw [hreg] at hr
    simp only [Option.map_some'] at hr
    rcases register_some tf tf0 hreg h with ⟨h1, h2, h3⟩
    rcases hmk : git_mkstemps_mode rand ((env.getD "/tmp") ++ "/" ++ template) sl cos.openFd
      with _ | q
    · rw [hmk] at hr
      simp only [] at hr
      cases hr
      exact ⟨by simp [h1], by simp [h1]⟩
    · rw [hmk] at hr
      simp only [] at hr
      cases hr
      refine ⟨fun _ => rfl, ⟨fun _ => rfl, fun _ => ?_⟩⟩
      unfold git_mkstemps_mode at hmk
      split at hmk
      · rcases hfd : cos.openFd with _ | n
        · rw [hfd] at hmk
          cases hmk
        · rw [hfd] at hmk
          simp only [Option.map_some'] at hmk
          cases hmk
          exact substTemplate_ne _ _ _
      · cases hmk

theorem reopen_inv (f : Option Nat) (er : Nat) (tf : Tempfile) (e : Nat)
    (r : Tempfile × Int × Nat) (h : tfInv tf)
    (hr : reopen_tempfile f er tf e = some r) : tfInv r.1 := by
  unfold reopen_tempfile at hr
  split at hr
  · cases hr
  · split at hr
    · cases hr
    · rename_i hfd hact
      have hact2 : tf.active = true := by simp_all
      rcases f with _ | n
      · simp only [] at hr
        cases hr
        refine ⟨fun hh => ?_, h.2⟩
        have hh2 : (0 : Int) ≤ -1 := hh
        exact absurd hh2 (by decide)
      · simp only [] at hr
        cases hr
        exact ⟨fun _ => hact2, h.2⟩

theorem fdopen_inv (ok : Bool) (tf tf1 : Tempfile) (h : tfInv tf)
    (hr : fdopen_tempfile ok tf = some tf1) : tfInv tf1 := by
  unfold fdopen_tempfile at hr
  repeat' split at hr
  all_goals cases hr
  all_goals simp_all [tfInv]

theorem rename_inv (os : OS) (dest : String) (tf : Tempfile) (e : Nat)
    (r : Tempfile × Int × Nat × List Event) (h : tfInv tf)
    (hr : rename_tempfile os dest tf e = some r) : tfInv r.1 := by
  unfold rename_tempfile at hr
  split at hr
  · cases hr
  · rename_i hact
    simp only [] at hr
    split at hr
    · cases hr
      exact close_inv os tf e h
    · rename_i hret
      simp only [Decidable.not_not] at hret
      split at hr
      · cases hr
        rcases close_ret0 os tf e hret with ⟨h1, h2, h3, h4⟩
        refine ⟨fun hh => ?_, ?_⟩
        · have hh2 : (0 : Int) ≤ (close_tempfile os tf e).1.fd := hh
          omega
        · exact ⟨fun hh => absurd rfl hh, fun hh => Bool.noConfusion hh⟩
      · cases hr
        exact delete_inv _ _ _ (close_inv os tf e h)

theorem cstep_inv (c : COp) (tf : Tempfile) (e : Nat) (r : Tempfile × Nat × List Event)
    (h : tfInv tf ∨ tf.on_list = false)
    (hr : cstep c tf e = some r) : tfInv r.1 := by
  cases c with
  | createC cos os cwd path pid =>
    simp only [cstep] at hr
    rcases hc : create_tempfile cos os cwd path pid tf e with _ | r2
    · rw [hc] at hr
      cases hr
    · rw [hc] at hr
      simp only [Option.map_some'] at hr
      cases hr
      exact create_inv _ _ _ _ _ _ _ _ h hc
  | regExternalC cwd path pid =>
    simp only [cstep] at hr
    rcases hc : register_tempfile cwd path pid tf with _ | tf2
    · rw [hc] at hr
      cases hr
    · rw [hc] at hr
      simp only [Option.map_some'] at hr
      cases hr
      exact register_tempfile_inv _ _ _ _ _ h hc
  | mksSmC cos cwd template sl rand pid =>
    simp only [cstep] at hr
    rcases hc : mks_tempfile_sm cos cwd template sl rand pid tf e with _ | r2
    · rw [hc] at hr
      cases hr
    · rw [hc] at hr
      simp only [Option.map_some'] at hr
      cases hr
      exact mks_sm_inv _ _ _ _ _ _ _ _ _ h hc
  | mksTsmC cos env template sl rand pid =>
    simp only [cstep] at hr
    rcases hc : mks_tempfile_tsm cos env template sl rand pid tf e with _ | r2
    · rw [hc] at hr
      cases hr
    · rw [hc] at hr
      simp only [Option.map_some'] at hr
      cases hr
      exact mks_tsm_inv _ _ _ _ _ _ _ _ _ h hc

theorem estep_inv (op : EOp) (tf : Tempfile) (e : Nat) (r : Tempfile × Nat × List Event)
    (h : tfInv tf) (hr : estep op tf e = some r) : tfInv r.1 := by
  cases op with
  | closeE os =>
    simp only [estep] at hr
    cases hr
    exact close_inv os tf e h
  | deleteE os =>
    simp only [estep] at hr
    cases hr
    exact delete_inv os tf e h
  | renameE os dest =>
    simp only [estep] at hr
    rcases hc : rename_tempfile os dest tf e with _ | r2
    · rw [hc] at hr
      cases hr
    · rw [hc] at hr
      simp only [Option.map_some'] at hr
      cases hr
      exact rename_inv _ _ _ _ _ h hc
  | reopenE f er =>
    simp only [estep] at hr
    rcases hc : reopen_tempfile f er tf e with _ | r2
    · rw [hc] at hr
      cases hr
    · rw [hc] at hr
      simp only [Option.map_some'] at hr
      cases hr
      exact reopen_inv _ _ _ _ _ h hc
  | fdopenE ok =>
    simp only [estep] at hr
    rcases hc : fdopen_tempfile ok tf with _ | tf2
    · rw [hc] at hr
      cases hr
    · rw [hc] at hr
      simp only [Option.map_some'] at hr
      cases hr
      exact fdopen_inv _ _ _ h hc

theorem step_inv (op : Op) (tf : Tempfile) (e : Nat) (r : Tempfile × Nat × List Event)
    (h : tfInv tf) (hr : step op tf e = some r) : tfInv r.1 := by
  cases op with
  | c op => exact cstep_inv op tf e r (Or.inl h) hr
  | e op => exact estep_inv op tf e r h hr

theorem run_inv (ops : List Op) (tf : Tempfile) (e : Nat) (r : Tempfile × Nat)
    (h : tfInv tf) (hr : run ops tf e = some r) : tfInv r.1 := by
  induction ops generalizing tf e with
  | nil =>
    simp only [run] at hr
    cases hr
    exact h
  | cons op ops ih =>
    simp only [run] at hr
    rcases hs : step op tf e with _ | r1
    · rw [hs] at hr
      cases hr
    · rw [hs] at hr
      exact ih r1.1 r1.2.1 (step_inv op tf e r1 h hs) hr

theorem mstep_hooks (op : MOp) (m m2 : MState) (h : hooksInv m)
    (hr : mstep op m = some m2) : hooksInv m2 := by
  cases op with
  | mnew c =>
    simp only [mstep] at hr
    rcases hc : cstep c freshTempfile 0 with _ | r
    · rw [hc] at hr
      cases hr
    · rw [hc] at hr
      simp only [Option.map_some'] at hr
      cases hr
      unfold hooksInv at h ⊢
      by_cases he : m.list.isEmpty <;> simp_all
  | mreuse i c =>
    simp only [mstep] at hr
    rcases hg : m.list[i]? with _ | tf
    · rw [hg] at hr
      cases hr
    · rw [hg] at hr
      simp only [] at hr
      rcases hc : cstep c tf 0 with _ | r
      · rw [hc] at hr
        cases hr
      · rw [hc] at hr
        simp only [Option.map_some'] at hr
        cases hr
        have hne : m.list ≠ [] := by
          intro hnil
          rw [hnil] at hg
          cases hg
        unfold hooksInv at h ⊢
        have he : m.list.isEmpty = false := by
          simp [List.isEmpty_iff, hne]
        have he2 : (m.list.set i r.1).isEmpty = false := by
          simp [List.isEmpty_iff]
          intro hnil2
          exact hne (by simpa using congrArg List.length hnil2)
        simp_all
  | ment i e =>
    simp only [mstep] at hr
    rcases hg : m.list[i]? with _ | tf
    · rw [hg] at hr
      cases hr
    · rw [hg] at hr
      simp only [] at hr
      rcases hc : estep e tf 0 with _ | r
      · rw [hc] at hr
        cases hr
      · rw [hc] at hr
        simp only [Option.map_some'] at hr
        cases hr
        have hne : m.list ≠ [] := by
          intro hnil
          rw [hnil] at hg
          cases hg
        have he : m.list.isEmpty = false := by
          simp [List.isEmpty_iff, hne]
        have he2 : (m.list.set i r.1).isEmpty = false := by
          simp [List.isEmpty_iff]
          intro hnil2
          exact hne (by simpa using congrArg List.length hnil2)
        unfold hooksInv at h ⊢
        simp_all

theorem mrun_hooks (ops : List MOp) (m m2 : MState) (h : hooksInv m)
    (hr : mrun ops m = some m2) : hooksInv m2 := by
  induction ops generalizing m with
  | nil =>
    simp only [mrun] at hr
    cases hr
    exact h
  | cons op ops ih =>
    simp only [mrun] at hr
    rcases hs : mstep op m with _ | m1
    · rw [hs] at hr
      cases hr
    · rw [hs] at hr
      exact ih m1 (mstep_hooks op m m1 h hs) hr

theorem mstep_len (op : MOp) (m m2 : MState) (hr : mstep op m = some m2) :
    m.list.length ≤ m2.list.length := by
  cases op with
  | mnew c =>
    simp only [mstep] at hr
    rcases hc : cstep c freshTempfile 0 with _ | r
    · rw [hc] at hr
      cases hr
    · rw [hc] at hr
      simp only [Option.map_some'] at hr
      cases hr
      simp
  | mreuse i c =>
    simp only [mstep] at hr
    rcases hg : m.list[i]? with _ | tf
    · rw [hg] at hr
      cases hr
    · rw [hg] at hr
      simp only [] at hr
      rcases hc : cstep c tf 0 with _ | r
      · rw [hc] at hr
        cases hr
      · rw [hc] at hr
        simp only [Option.map_some'] at hr
        cases hr
        simp
  | ment i e =>
    simp only [mstep] at hr
    rcases hg : m.list[i]? with _ | tf
    · rw [hg] at hr
      cases hr
    · rw [hg] at hr
      simp only [] at hr
      rcases hc : estep e tf 0 with _ | r
      · rw [hc] at hr
        cases hr
      · rw [hc] at hr
        simp only [Option.map_some'] at hr
        cases hr
        simp

/-- C1: one cleanup pass drains the process-wide registry completely (the
list global is empty afterwards); `delete_tempfile` is invoked exactly on
the entities whose owner equals the current pid (in list order, after the
signal-path stream discard when applicable); an entity owned by another
process survives with its state untouched (it is merely unlinked from
the set), and every attempted file unlink is on the path of some entity
owned by the current pid. -/
theorem claimC1_cleanup (skip : Bool) (me : Nat) (l : List (OS × Tempfile)) :
    (remove_tempfiles skip me l).registry = [] ∧
    (remove_tempfiles skip me l).calls =
      (l.filter fun q => q.2.owner = me).map
        (fun q => if skip then { q.2 with fp := false } else q.2) ∧
    (∀ os tf, (os, tf) ∈ l → tf.owner ≠ me →
      tf ∈ (remove_tempfiles skip me l).finals) ∧
    (∀ p, Event.unlinkEv p ∈ (remove_tempfiles skip me l).events →
      ∃ q, q ∈ l ∧ q.2.owner = me ∧ q.2.filename = p) :=
  ⟨remove_registry_empty skip me l, remove_calls_eq skip me l,
   fun os tf h1 h2 => remove_finals_other skip me l os tf h1 h2,
   fun p h => remove_unlink_owned skip me l p h⟩

theorem claimC1_cleanup_witness :
    (remove_tempfiles false 1 regList).registry = [] ∧
    tfActiveB ∈ (remove_tempfiles false 1 regList).finals ∧
    ∃ q, q ∈ regList ∧ q.2.owner = 1 ∧ q.2.filename = "/t/a" := by
  have h := claimC1_cleanup false 1 regList
  exact ⟨h.1, h.2.2.1 osOkC tfActiveB (by decide) (by decide),
         h.2.2.2 "/t/a" (by decide)⟩

/-- C2: on the signal-safe cleanup path the buffered-stream close routine
is never invoked (no `fclose` event ever appears in the trace), because
every entity handed to `delete_tempfile` has had its stream handle
discarded (`fp` reset) beforehand. -/
theorem claimC2_signal_path (me : Nat) (l : List (OS × Tempfile)) :
    (∀ p, Event.fcloseEv p ∉ (remove_tempfiles true me l).events) ∧
    (∀ tf, tf ∈ (remove_tempfiles true me l).calls → tf.fp = false) := by
  refine ⟨fun p => remove_no_fclose me l p, fun tf h => ?_⟩
  rw [remove_calls_eq] at h
  simp only [List.mem_map] at h
  rcases h with ⟨q, hq, hf⟩
  subst hf
  rfl

theorem claimC2_signal_path_witness :
    Event.fcloseEv "/t/c" ∉ (remove_tempfiles true 1 [(osOkC, tfStreamC)]).events :=
  (claimC2_signal_path 1 [(osOkC, tfStreamC)]).1 "/t/c"

/-- C3 counterexample: a successful `create_tempfile` followed by a
successful `close_tempfile` — a sequence containing no commit/rollback —
ends with the entity still active, its path still recorded, but its
descriptor already the -1 sentinel: the claimed "descriptor valid iff
active and no commit/rollback" equivalence is false at that state (this
is precisely the state `reopen_tempfile` exists to serve). -/
theorem claimC3_counterexample :
    run opsCreateClose freshTempfile 0 = some (tfAfterClose, 0) ∧
    opsCreateClose.all (fun op => !isCommitOrRollback op) = true ∧
    ¬ specDescriptorInv tfAfterClose false := by decide

/-- C3 (amended): what does hold at the end of every operation of every
sequence is: a valid (non-sentinel) descriptor implies the entity is
active, and the recorded path is non-empty if and only if the entity is
active.  The equivalence between descriptor validity and activity fails
(see the counterexample): a closed-but-active entity has the sentinel
descriptor with no commit/rollback having occurred.  The invariant is
established by any creation-family operation run on a fresh zeroed
entity and preserved by every operation thereafter. -/
theorem claimC3_invariant :
    (∀ (ops : List Op) (tf : Tempfile) (e : Nat) (r : Tempfile × Nat),
      tfInv tf → run ops tf e = some r → tfInv r.1) ∧
    (∀ (c : COp) (e : Nat) (r : Tempfile × Nat × List Event),
      cstep c freshTempfile e = some r → tfInv r.1) :=
  ⟨fun ops tf e r h hr => run_inv ops tf e r h hr,
   fun c e r hr => cstep_inv c freshTempfile e r (Or.inr rfl) hr⟩

theorem claimC3_invariant_witness :
    tfInv tfReset ∧ tfInv tfAfterClose :=
  ⟨by decide,
   claimC3_invariant.1 opsCreateClose tfReset 0 (tfAfterClose, 0) (by decide) (by decide)⟩

/-- C4: `rename_tempfile` on an inactive entity is a fatal contract
violation (`die`, modelled as `none`); on an active entity whose close
step succeeds, a failing rename deletes the entity (inactive, path
cleared, file unlinked) and returns -1 with the rename's own `errno`
preserved across the cleanup; a successful rename returns 0 with the
entity inactive and its path cleared. -/
theorem claimC4_rename (os : OS) (dest : String) (tf : Tempfile) (e : Nat) :
    (tf.active = false → rename_tempfile os dest tf e = none) ∧
    (tf.active = true → (close_tempfile os tf e).2.1 = 0 →
      match rename_tempfile os dest tf e with
      | some r =>
          (os.renameOk = false →
            r.2.1 = -1 ∧ r.2.2.1 = os.renameErrno ∧ r.1.active = false ∧
            r.1.filename = "" ∧ Event.unlinkEv tf.filename ∈ r.2.2.2) ∧
          (os.renameOk = true → r.2.1 = 0 ∧ r.1.active = false ∧ r.1.filename = "")
      | none => False) := by
  constructor
  · intro h
    unfold rename_tempfile
    simp [h]
  · intro hact hret
    rcases close_ret0 os tf e hret with ⟨h1, h2, h3, h4⟩
    unfold rename_tempfile
    rw [if_neg (by simp [hact])]
    simp only []
    rw [if_neg (by simp [hret])]
    by_cases hrok : os.renameOk = true
    · rw [if_pos hrok]
      exact ⟨fun hfalse => absurd hrok (by simp [hfalse]), fun _ => ⟨rfl, rfl, rfl⟩⟩
    · rw [if_neg hrok]
      have hca : (close_tempfile os tf e).1.active = true := by rw [h2, hact]
      have hd := delete_active_unlinks os (close_tempfile os tf e).1 os.renameErrno hca
      refine ⟨fun _ => ⟨rfl, rfl, delete_result_inactive _ _ _, hd.1, ?_⟩,
              fun htrue => absurd htrue hrok⟩
      rw [← h1]
      exact List.mem_append_right _ hd.2

theorem claimC4_rename_witness :
    rename_tempfile osRenameFail "/dst" tfActiveA 0 = some rOutC4 ∧
    rOutC4.2.1 = -1 ∧ rOutC4.2.2.1 = 17 ∧ rOutC4.1.active = false ∧
    rOutC4.1.filename = "" ∧ Event.unlinkEv "/t/a" ∈ rOutC4.2.2.2 := by
  have h := (claimC4_rename osRenameFail "/dst" tfActiveA 0).2 (by decide) (by decide)
  rw [show rename_tempfile osRenameFail "/dst" tfActiveA 0 = some rOutC4 from by decide] at h
  have hA := h.1 rfl
  exact ⟨by decide, hA.1, hA.2.1, hA.2.2.1, hA.2.2.2.1, hA.2.2.2.2⟩

/-- C9: when `rename_tempfile` is called on an active entity and the
close step fails, the rename syscall is never attempted (no rename event
occurs, so the destination is untouched); the close failure has already
deleted the entity (inactive, path cleared, file unlinked) and the call
returns -1 with the close's own error code preserved. -/
theorem claimC9_rename_close_fail (os : OS) (dest : String) (tf : Tempfile) (e : Nat)
    (hact : tf.active = true) (hret : (close_tempfile os tf e).2.1 ≠ 0) :
    match rename_tempfile os dest tf e with
    | some r =>
        r.2.1 = -1 ∧
        r.2.2.1 = (if tf.fp then os.fcloseErrno else os.closeErrno) ∧
        r.1.active = false ∧ r.1.filename = "" ∧
        Event.unlinkEv tf.filename ∈ r.2.2.2 ∧
        (∀ s d, Event.renameEv s d ∉ r.2.2.2)
    | none => False := by
  rcases close_fail os tf e hact hret with ⟨h1, h2, h3, h4, h5⟩
  unfold rename_tempfile
  rw [if_neg (by simp [hact])]
  simp only []
  rw [if_pos hret]
  exact ⟨rfl, h4, h1, h2, h5, fun s d => close_no_rename os tf e s d⟩

theorem claimC9_rename_close_fail_witness :
    rename_tempfile osCloseFail "/dst" tfActiveA 0 = some rOutC9 ∧
    rOutC9.2.1 = -1 ∧ rOutC9.2.2.1 = 9 ∧
    Event.renameEv "/t/a" "/dst" ∉ rOutC9.2.2.2 := by
  have h := claimC9_rename_close_fail osCloseFail "/dst" tfActiveA 0 (by decide) (by decide)
  rw [show rename_tempfile osCloseFail "/dst" tfActiveA 0 = some rOutC9 from by decide] at h
  exact ⟨by decide, h.1, h.2.1, h.2.2.2.2.2 "/t/a" "/dst"⟩

/-- C5: `delete_tempfile` on an inactive entity is a no-op (state,
`errno` and trace untouched), so a second rollback is always a no-op
with no second unlink attempt; on an active entity — whatever the close
outcome, since a failed close performs the deletion itself — the file
unlink is attempted and the entity ends inactive with its path
cleared. -/
theorem claimC5_delete (os : OS) (tf : Tempfile) (e : Nat) :
    (tf.active = false → delete_tempfile os tf e = (tf, e, [])) ∧
    (tf.active = true →
      (delete_tempfile os tf e).1.active = false ∧
      (delete_tempfile os tf e).1.filename = "" ∧
      Event.unlinkEv tf.filename ∈ (delete_tempfile os tf e).2.2) ∧
    (∀ (os2 : OS) (e2 : Nat),
      delete_tempfile os2 (delete_tempfile os tf e).1 e2 =
        ((delete_tempfile os tf e).1, e2, [])) :=
  ⟨fun h => delete_not_active os tf e h,
   fun h => ⟨delete_result_inactive os tf e, (delete_active_unlinks os tf e h).1,
             (delete_active_unlinks os tf e h).2⟩,
   fun os2 e2 => delete_not_active os2 _ e2 (delete_result_inactive os tf e)⟩

theorem claimC5_delete_witness :
    (delete_tempfile osOkC tfActiveA 0).1.active = false ∧
    Event.unlinkEv "/t/a" ∈ (delete_tempfile osOkC tfActiveA 0).2.2 ∧
    delete_tempfile osOkC (delete_tempfile osOkC tfActiveA 0).1 7 =
      ((delete_tempfile osOkC tfActiveA 0).1, 7, []) := by
  have h := claimC5_delete osOkC tfActiveA 0
  exact ⟨(h.2.1 rfl).1, (h.2.1 rfl).2.2, h.2.2 osOkC 7⟩

/-- C6: when `create_tempfile` opens the file successfully but the
permission-normalization step fails, the partially-created entity is
deleted (inactive, path cleared, file unlinked) and the caller observes
the `errno` of the original `adjust_shared_perm` failure — not whatever
the diagnostic `error(...)` call or the cleanup's unlink left behind
(the theorem holds for every `errorErrno`/`unlinkErrno`). -/
theorem claimC6_create_perm_fail (cos : COS) (os : OS) (cwd path : String) (pid : Nat)
    (tf tf0 : Tempfile) (e : Nat) (n : Nat)
    (hreg : register_tempfile_object tf = some tf0)
    (hopen : cos.openFd = some n) (hadj : cos.adjustOk = false) :
    match create_tempfile cos os cwd path pid tf e with
    | some r =>
        r.2.1 = -1 ∧ r.2.2.1 = cos.adjustErrno ∧ r.1.active = false ∧
        r.1.filename = "" ∧ Event.unlinkEv (absPath cwd path) ∈ r.2.2.2
    | none => False := by
  unfold create_tempfile
  rw [hreg]
  simp only [Option.map_some']
  rw [hopen]
  simp only []
  rw [if_neg (by simp [hadj])]
  exact ⟨rfl, rfl, delete_result_inactive _ _ _,
         (delete_active_unlinks _ _ _ rfl).1, (delete_active_unlinks _ _ _ rfl).2⟩

theorem claimC6_create_perm_fail_witness :
    create_tempfile cosPermFail osOkC "/cwd" "x" 1 freshTempfile 0 = some rOutC6 ∧
    rOutC6.2.1 = -1 ∧ rOutC6.2.2.1 = 13 ∧ Event.unlinkEv "/cwd/x" ∈ rOutC6.2.2.2 := by
  have h := claimC6_create_perm_fail cosPermFail osOkC "/cwd" "x" 1 freshTempfile
    { fd := -1, fp := false, active := false, owner := 0, filename := "", on_list := true }
    0 5 (by decide) rfl rfl
  rw [show create_tempfile cosPermFail osOkC "/cwd" "x" 1 freshTempfile 0 = some rOutC6
    from by decide] at h
  exact ⟨by decide, h.1, h.2.1, h.2.2.2.2⟩

/-- C7: `register_tempfile_object` dies exactly on an already-active
entity or a previously-listed entity still carrying a non-empty path
while inactive; otherwise it succeeds, a never-listed entity having all
its fields initialized to the empty/inactive defaults and being linked
into the process-wide set (the list grows by one). -/
theorem claimC7_register (tf : Tempfile) :
    (register_tempfile_object tf = none ↔
      (tf.active = true ∨ (tf.on_list = true ∧ tf.filename ≠ ""))) ∧
    (tf.on_list = false → tf.active = false →
      register_tempfile_object tf =
        some { fd := -1, fp := false, active := false, owner := 0,
               filename := "", on_list := true }) ∧
    (∀ (c : COp) (m m2 : MState), mstep (MOp.mnew c) m = some m2 →
      m2.list.length = m.list.length + 1) := by
  refine ⟨?_, ?_, ?_⟩
  · unfold register_tempfile_object
    rcases tf with ⟨fd, fp, active, owner, filename, onl⟩
    cases active <;> cases onl <;> by_cases hf : filename = "" <;> simp_all
  · intro h1 h2
    unfold register_tempfile_object
    simp [h1, h2]
  · intro c m m2 hr
    simp only [mstep] at hr
    rcases hc : cstep c freshTempfile 0 with _ | r
    · rw [hc] at hr
      cases hr
    · rw [hc] at hr
      simp only [Option.map_some'] at hr
      cases hr
      simp

theorem claimC7_register_witness :
    register_tempfile_object freshTempfile =
      some { fd := -1, fp := false, active := false, owner := 0,
             filename := "", on_list := true } ∧
    register_tempfile_object tfActiveA = none :=
  ⟨(claimC7_register freshTempfile).2.1 rfl rfl,
   (claimC7_register tfActiveA).1.mpr (Or.inl rfl)⟩

/-- C8: starting from the pristine module state, every successful
sequence of module operations leaves the one-time initialization counter
at 1 exactly when the registry is non-empty (so the hooks are installed
once, on the first registration, and never again, since the registry
never shrinks during normal operation — the second conjunct). -/
theorem claimC8_hooks :
    (∀ (ops : List MOp) (m : MState), mrun ops mInit = some m →
      m.installs = if m.list.isEmpty then 0 else 1) ∧
    (∀ (op : MOp) (m m2 : MState), mstep op m = some m2 →
      m.list.length ≤ m2.list.length) :=
  ⟨fun ops m h => mrun_hooks ops mInit m rfl h,
   fun op m m2 h => mstep_len op m m2 h⟩

theorem claimC8_hooks_witness :
    mFinalC8.installs = if mFinalC8.list.isEmpty then 0 else 1 :=
  claimC8_hooks.1 opsC8 mFinalC8 (by decide)

theorem substTemplate_head (buf rand : String) (sl : Nat) (h : 6 + sl < buf.data.length) :
    (substTemplate buf rand sl).data.head? = buf.data.head? := by
  have hshow : (substTemplate buf rand sl).data =
      (buf.data.take (buf.data.length - (6 + sl)) ++
       (rand.data ++ List.replicate 6 'X').take 6) ++
      buf.data.drop (buf.data.length - sl) := rfl
  rcases hb : buf.data with _ | ⟨c, cs⟩
  · rw [hb] at h
    simp at h
  · have h2 : 6 + sl < (c :: cs).length := by rw [hb] at h ; exact h
    obtain ⟨k, hk⟩ : ∃ k, (c :: cs).length - (6 + sl) = k + 1 :=
      ⟨(c :: cs).length - (6 + sl) - 1, by omega⟩
    rw [hshow, hb, hk, List.take_succ_cons]
    simp

theorem data_concat3 (t u : String) :
    (t ++ "/" ++ u).data = t.data ++ '/' :: u.data := by
  rw [String.data_append, String.data_append]
  simp

theorem isAbs_of_head (s s2 : String) (h : s.data.head? = s2.data.head?) :
    isAbs s = isAbs s2 := by
  unfold isAbs
  rw [h]

theorem isAbs_concat3 (t u : String) (c : Char) (cs : List Char) (ht : t.data = c :: cs) :
    isAbs (t ++ "/" ++ u) = isAbs t := by
  unfold isAbs
  rw [data_concat3, ht]
  simp

theorem concat3_len (t u : String) :
    (t ++ "/" ++ u).data.length = t.data.length + 1 + u.data.length := by
  rw [data_concat3, List.length_append, List.length_cons]
  omega

theorem data_of_ne_empty (t : String) (h : t ≠ "") : ∃ c cs, t.data = c :: cs := by
  rcases hd : t.data with _ | ⟨c, cs⟩
  · exfalso
    exact h (String.ext (by rw [hd]))
  · exact ⟨c, cs, rfl⟩

/-- C10: the environment-rooted template creation builds the recorded
path by concatenating the `TMPDIR` value (default "/tmp" when unset)
verbatim with a slash and the template — no path resolution — so a
relative `TMPDIR` yields a relative recorded path (second conjunct),
while `mks_tempfile_sm` resolves through `absPath` and records an
absolute path whenever the working directory is absolute (third
conjunct). -/
theorem claimC10_tsm_verbatim :
    (∀ (cos : COS) (env : Option String) (template : String) (sl : Nat) (rand : String)
       (pid : Nat) (tf tf0 : Tempfile) (e : Nat) (n : Nat),
      register_tempfile_object tf = some tf0 → cos.openFd = some n →
      6 + sl ≤ ((env.getD "/tmp") ++ "/" ++ template).data.length →
      match mks_tempfile_tsm cos env template sl rand pid tf e with
      | some r =>
          r.1.filename = substTemplate ((env.getD "/tmp") ++ "/" ++ template) rand sl
      | none => False) ∧
    (∀ (cos : COS) (t template : String) (sl : Nat) (rand : String) (pid : Nat)
       (tf tf0 : Tempfile) (e : Nat) (n : Nat),
      register_tempfile_object tf = some tf0 → cos.openFd = some n →
      t ≠ "" → isAbs t = false → 6 + sl ≤ template.data.length →
      match mks_tempfile_tsm cos (some t) template sl rand pid tf e with
      | some r => isAbs r.1.filename = false
      | none => False) ∧
    (∀ (cos : COS) (cwd template : String) (sl : Nat) (rand : String) (pid : Nat)
       (tf tf0 : Tempfile) (e : Nat) (n : Nat),
      register_tempfile_object tf = some tf0 → cos.openFd = some n →
      cwd ≠ "" → isAbs cwd = true → isAbs template = false →
      6 + sl ≤ template.data.length →
      match mks_tempfile_sm cos cwd template sl rand pid tf e with
      | some r => isAbs r.1.filename = true
      | none => False) := by
  refine ⟨?_, ?_, ?_⟩
  · intro cos env template sl rand pid tf tf0 e n hreg hopen hlen
    unfold mks_tempfile_tsm
    rw [hreg]
    simp only [Option.map_some']
    unfold git_mkstemps_mode
    rw [if_pos hlen, hopen]
    simp only [Option.map_some']
  · intro cos t template sl rand pid tf tf0 e n hreg hopen hne habs hsl
    rcases data_of_ne_empty t hne with ⟨c, cs, hdt⟩
    have hlen : 6 + sl ≤ (t ++ "/" ++ template).data.length := by
      rw [concat3_len]
      omega
    have ht1 : t.data.length = cs.length + 1 := by
      rw [hdt]
      simp
    have hlen2 : 6 + sl < (t ++ "/" ++ template).data.length := by
      rw [concat3_len]
      omega
    unfold mks_tempfile_tsm
    rw [hreg]
    simp only [Option.map_some', Option.getD]
    unfold git_mkstemps_mode
    rw [if_pos hlen, hopen]
    simp only [Option.map_some']
    show isAbs (substTemplate (t ++ "/" ++ template) rand sl) = false
    rw [isAbs_of_head _ _ (substTemplate_head _ rand sl hlen2),
        isAbs_concat3 t template c cs hdt]
    exact habs
  · intro cos cwd template sl rand pid tf tf0 e n hreg hopen hne hcwd htpl hsl
    rcases data_of_ne_empty cwd hne with ⟨c, cs, hdc⟩
    have hbuf : absPath cwd template = cwd ++ "/" ++ template := by
      unfold absPath
      rw [if_neg (by simp [htpl])]
    have hlen : 6 + sl ≤ (absPath cwd template).data.length := by
      rw [hbuf, concat3_len]
      omega
    have hc1 : cwd.data.length = cs.length + 1 := by
      rw [hdc]
      simp
    have hlen2 : 6 + sl < (absPath cwd template).data.length := by
      rw [hbuf, concat3_len]
      omega
    unfold mks_tempfile_sm
    rw [hreg]
    simp only [Option.map_some']
    unfold git_mkstemps_mode
    rw [if_pos hlen, hopen]
    simp only [Option.map_some']
    show isAbs (substTemplate (absPath cwd template) rand sl) = true
    rw [isAbs_of_head _ _ (substTemplate_head _ rand sl hlen2), hbuf,
        isAbs_concat3 cwd template c cs hdc]
    exact hcwd

theorem claimC10_tsm_verbatim_witness :
    mks_tempfile_tsm cosOpenOk (some "tmp") "fooXXXXXX" 0 "abc123" 1 freshTempfile 0 =
      some ({ fd := 5, fp := false, active := true, owner := 1,
              filename := "tmp/fooabc123", on_list := true }, 5, 0) ∧
    isAbs "tmp/fooabc123" = false ∧
    mks_tempfile_sm cosOpenOk "/cwd" "fooXXXXXX" 0 "abc123" 1 freshTempfile 0 =
      some ({ fd := 5, fp := false, active := true, owner := 1,
              filename := "/cwd/fooabc123", on_list := true }, 5, 0) ∧
    isAbs "/cwd/fooabc123" = true := by
  have h2 := claimC10_tsm_verbatim.2.1 cosOpenOk "tmp" "fooXXXXXX" 0 "abc123" 1
    freshTempfile tfReset 0 5 (by decide) rfl (by decide) (by decide) (by decide)
  have h3 := claimC10_tsm_verbatim.2.2 cosOpenOk "/cwd" "fooXXXXXX" 0 "abc123" 1
    freshTempfile tfReset 0 5 (by decide) rfl (by decide) (by decide) (by decide) (by decide)
  rw [show mks_tempfile_tsm cosOpenOk (some "tmp") "fooXXXXXX" 0 "abc123" 1 freshTempfile 0 =
      some ({ fd := 5, fp := false, active := true, owner := 1,
              filename := "tmp/fooabc123", on_list := true }, 5, 0) from by decide] at h2
  rw [show mks_tempfile_sm cosOpenOk "/cwd" "fooXXXXXX" 0 "abc123" 1 freshTempfile 0 =
      some ({ fd := 5, fp := false, active := true, owner := 1,
              filename := "/cwd/fooabc123", on_list := true }, 5, 0) from by decide] at h3
  exact ⟨by decide, h2, by decide, h3⟩
